import Mathlib

/-!
Shallow embedding of the SmartMenu ordering backend
(`backend/app/models.py`, `backend/app/services.py`,
`backend/app/api/sessions.py`, `backend/app/api/orders.py`,
`backend/app/api/restaurants.py`).

Modelling conventions:
* Currency (`Decimal`) is modelled by `ℚ`: every operation performed by the
  source on these values (addition, multiplication by an integer quantity,
  multiplication by the literal tax rate `0.05`) is exact in Python
  `Decimal` arithmetic, so `ℚ` is a faithful exact-decimal model.
* Timestamps (`datetime.utcnow()`) are modelled by `Nat` (seconds); the
  two-hour session lifetime `timedelta(hours=2)` is `7200`.
* UUID session identifiers are opaque tokens, modelled by `Nat`; the value
  produced by `uuid4()` is passed in as an explicit `fresh` argument.
* The relational store is a record of row lists; `session.get(Model, pk)`
  is a `find?` on the primary key, `session.exec(select(...)).first()` is a
  `find?` with the query's filter, autoincrement primary keys are explicit
  counters.  Surrogate primary keys the source never reads
  (`MenuItemModifier.id`, `OrderItemModifier.id`, `GuestSession.id`) and
  `created_at` columns of the static catalog tables (which no modelled
  operation writes or reads) are omitted.
* Python `raise ValueError` / FastAPI `HTTPException` become `Except` /
  explicit error sums.  A SQLAlchemy `commit` makes the pending writes part
  of the returned store; a `rollback` discards exactly the writes since the
  last commit.
-/

namespace SmartMenu

/-- `Restaurant` table row (models.py). -/
structure Restaurant where
  id : Nat
  slug : String
  name : String
deriving DecidableEq

/-- `MenuItem` table row (models.py). -/
structure MenuItem where
  id : Nat
  restaurant_id : Nat
  name : String
  description : Option String
  category : String
  price : ℚ
  available : Bool
deriving DecidableEq

/-- `Modifier` table row (models.py). -/
structure Modifier where
  id : Nat
  restaurant_id : Nat
  name : String
  price : ℚ
deriving DecidableEq

/-- `MenuItemModifier` junction row (models.py). -/
structure MenuItemModifier where
  menu_item_id : Nat
  modifier_id : Nat
deriving DecidableEq

/-- `GuestSession` table row (models.py). -/
structure GuestSession where
  session_id : Nat
  restaurant_slug : String
  table_id : String
  expires_at : Nat
  created_at : Nat
deriving DecidableEq

/-- `Order` table row (models.py). -/
structure Order where
  id : Nat
  session_id : Nat
  table_id : String
  status : String
  subtotal : ℚ
  tax : ℚ
  total_amount : ℚ
  payment_method : String
  created_at : Nat
  updated_at : Nat
deriving DecidableEq

/-- `OrderItem` table row (models.py). -/
structure OrderItem where
  id : Nat
  order_id : Nat
  menu_item_id : Nat
  quantity : Int
  unit_price : ℚ
  note : Option String
  created_at : Nat
deriving DecidableEq

/-- `OrderItemModifier` table row (models.py). -/
structure OrderItemModifier where
  order_item_id : Nat
  modifier_id : Nat
  price : ℚ
deriving DecidableEq

/-- The relational store: one list of rows per table, plus the
autoincrement counters for the primary keys the source reads back
(`order.id` via `session.refresh`, `order_item.id` via `session.flush`). -/
structure DB where
  restaurants : List Restaurant
  menuItems : List MenuItem
  modifiers : List Modifier
  menuItemModifiers : List MenuItemModifier
  sessions : List GuestSession
  orders : List Order
  orderItems : List OrderItem
  orderItemModifiers : List OrderItemModifier
  nextOrderId : Nat
  nextOrderItemId : Nat
deriving DecidableEq

/-- Request line item (`OrderItemCreate` in models.py).  `modifier_ids` is
already defaulted to `[]` the way the API layer does with
`item.modifier_ids or []`.  `quantity` is a Python `int`: any integer. -/
structure LineItem where
  item_id : Nat
  quantity : Int
  modifier_ids : List Nat
  note : Option String
deriving DecidableEq

/-- `SessionCreate` request (models.py). -/
structure SessionCreate where
  restaurant_slug : String
  table_id : String
deriving DecidableEq

/-- `SessionResponse` (models.py). -/
structure SessionResponse where
  session_id : Nat
  expires_at : Nat
deriving DecidableEq

/-- `OrderCreate` request (models.py); `payment.method` is flattened. -/
structure OrderCreate where
  session_id : Nat
  table_id : String
  items : List LineItem
  payment_method : String
deriving DecidableEq

/-- `OrderResponse` (models.py). -/
structure OrderResponse where
  order_id : Nat
  status : String
  total_amount : ℚ
deriving DecidableEq

/-- The `ValueError`s raised by `services.py` (missing menu item /
missing modifier). -/
inductive CatalogError where
  | itemNotFound (id : Nat)
  | modifierNotFound (id : Nat)
deriving DecidableEq

/-- The client-facing errors of the order endpoints (orders.py):
404 session, 400 table mismatch, 404 order, 400 non-pending status, and
the 400 produced from a `ValueError` of the pricing or materialization
helpers. -/
inductive ApiError where
  | sessionNotFound
  | tableMismatch
  | orderNotFound
  | invalidStatus (status : String)
  | badRequest (e : CatalogError)
deriving DecidableEq

/-- `TAX_RATE = Decimal("0.05")` (services.py line 10). -/
def TAX_RATE : ℚ := 5 / 100

/-- `session.get(MenuItem, item_id)`: primary-key lookup. -/
def findMenuItem (db : DB) (item_id : Nat) : Option MenuItem :=
  db.menuItems.find? (fun m => m.id == item_id)

/-- `session.get(Modifier, mod_id)`: primary-key lookup. -/
def findModifier (db : DB) (mod_id : Nat) : Option Modifier :=
  db.modifiers.find? (fun m => m.id == mod_id)

/-- `session.get(Order, order_id)`: primary-key lookup. -/
def findOrder (db : DB) (order_id : Nat) : Option Order :=
  db.orders.find? (fun o => o.id == order_id)

/-- Inner loop of `calculate_order_total` (services.py lines 46-51): add
`modifier.price * quantity` per referenced modifier to the running
subtotal, failing on an absent modifier.  (The source's `if modifier_ids:`
guard is a no-op over an empty list.) -/
def priceModifiers (db : DB) (quantity : Int) (modifier_ids : List Nat)
    (subtotal : ℚ) : Except CatalogError ℚ :=
  match modifier_ids with
  | [] => .ok subtotal
  | mod_id :: rest =>
    match findModifier db mod_id with
    | none => .error (.modifierNotFound mod_id)
    | some modifier =>
        priceModifiers db quantity rest (subtotal + modifier.price * (quantity : ℚ))

/-- Outer loop of `calculate_order_total` (services.py lines 31-51): per
line, add `menu_item.price * quantity`, then the modifier prices. -/
def priceItems (db : DB) (items : List LineItem) (subtotal : ℚ) :
    Except CatalogError ℚ :=
  match items with
  | [] => .ok subtotal
  | item_data :: rest =>
    match findMenuItem db item_data.item_id with
    | none => .error (.itemNotFound item_data.item_id)
    | some menu_item =>
      match priceModifiers db item_data.quantity item_data.modifier_ids
          (subtotal + menu_item.price * (item_data.quantity : ℚ)) with
      | .error e => .error e
      | .ok s => priceItems db rest s

/-- The seed of the running subtotal (services.py line 29):
`existing_order.subtotal if existing_order else Decimal("0.00")`. -/
def seedOf : Option Order → ℚ
  | some o => o.subtotal
  | none => 0

/-- `calculate_order_total` (services.py lines 13-57): seed the subtotal
with the existing order's subtotal (append mode) or `0.00`, price every
line, then `tax = subtotal * TAX_RATE`, `total = subtotal + tax`. -/
def calculate_order_total (db : DB) (items : List LineItem)
    (existing_order : Option Order) : Except CatalogError (ℚ × ℚ × ℚ) :=
  match priceItems db items (seedOf existing_order) with
  | .error e => .error e
  | .ok subtotal => .ok (subtotal, subtotal * TAX_RATE, subtotal + subtotal * TAX_RATE)

/-- Specification-side contribution of one referenced modifier:
its catalog price times the line quantity (0 for an absent reference; only
used under hypotheses that the reference exists). -/
def modPrice (db : DB) (quantity : Int) (mod_id : Nat) : ℚ :=
  match findModifier db mod_id with
  | some modifier => modifier.price * (quantity : ℚ)
  | none => 0

/-- Specification-side base contribution of one line: catalog price times
quantity (0 for an absent reference). -/
def itemPrice (db : DB) (l : LineItem) : ℚ :=
  match findMenuItem db l.item_id with
  | some menu_item => menu_item.price * (l.quantity : ℚ)
  | none => 0

/-- Specification-side value of one line: catalog price times quantity plus
each referenced modifier's price times quantity. -/
def linePrice (db : DB) (l : LineItem) : ℚ :=
  itemPrice db l + (l.modifier_ids.map (modPrice db l.quantity)).sum

/-- Specification-side sum of a request's line values. -/
def itemsTotal (db : DB) (items : List LineItem) : ℚ :=
  (items.map (linePrice db)).sum

/-- Every catalog reference of the request resolves: each line's menu item
exists and each of its modifier ids exists. -/
def refsExist (db : DB) (items : List LineItem) : Prop :=
  ∀ l ∈ items, (findMenuItem db l.item_id).isSome ∧
    ∀ m ∈ l.modifier_ids, (findModifier db m).isSome

instance (db : DB) (items : List LineItem) : Decidable (refsExist db items) := by
  unfold refsExist
  exact inferInstance

/-- Inner loop of `create_order_items` (services.py lines 101-112): insert
one `OrderItemModifier` row per referenced modifier, with a price
snapshot; fail on an absent modifier. -/
def insertOrderItemModifiers (db : DB) (order_item_id : Nat)
    (modifier_ids : List Nat) : Except CatalogError DB :=
  match modifier_ids with
  | [] => .ok db
  | mod_id :: rest =>
    match findModifier db mod_id with
    | none => .error (.modifierNotFound mod_id)
    | some modifier =>
        insertOrderItemModifiers
          {db with orderItemModifiers :=
            db.orderItemModifiers ++ [⟨order_item_id, mod_id, modifier.price⟩]}
          order_item_id rest

/-- `create_order_items` (services.py lines 60-116): per line, look up the
menu item (fail if absent), insert an `OrderItem` row with a unit-price
snapshot (the `flush` makes its autoincrement id available), then insert
its modifier-selection rows.  All inserts are uncommitted until the caller
commits; a `ValueError` leaves the store as the caller last committed it,
which is why the error case carries no store. -/
def create_order_items (db : DB) (order_id : Nat) (now : Nat)
    (items : List LineItem) : Except CatalogError DB :=
  match items with
  | [] => .ok db
  | item_data :: rest =>
    match findMenuItem db item_data.item_id with
    | none => .error (.itemNotFound item_data.item_id)
    | some menu_item =>
      match insertOrderItemModifiers
          {db with
            orderItems := db.orderItems ++
                [⟨db.nextOrderItemId, order_id, item_data.item_id, item_data.quantity,
                  menu_item.price, item_data.note, now⟩],
            nextOrderItemId := db.nextOrderItemId + 1}
          db.nextOrderItemId item_data.modifier_ids with
      | .error e => .error e
      | .ok db2 => create_order_items db2 order_id now rest

/-- The filter of the session query in `create_session` (sessions.py lines
21-25): exact (restaurant_slug, table_id) match with
`expires_at > utcnow()`. -/
def liveSessionPred (now : Nat) (session_data : SessionCreate)
    (s : GuestSession) : Bool :=
  s.restaurant_slug == session_data.restaurant_slug &&
    s.table_id == session_data.table_id && decide (now < s.expires_at)

/-- `create_session` (sessions.py lines 11-47): return the first stored
live session for the (restaurant_slug, table_id) pair unchanged, else
insert and return a new session expiring in 2 hours (`expires_at` is
computed as `utcnow() + 2h` before the query) whose identifier is the
externally generated `fresh` token (`uuid4()`). -/
def create_session (db : DB) (now fresh : Nat) (session_data : SessionCreate) :
    DB × SessionResponse :=
  match db.sessions.find? (liveSessionPred now session_data) with
  | some existing_session =>
      (db, ⟨existing_session.session_id, existing_session.expires_at⟩)
  | none =>
      ({db with sessions := db.sessions ++
          [⟨fresh, session_data.restaurant_slug, session_data.table_id, now + 7200, now⟩]},
       ⟨fresh, now + 7200⟩)

/-- The session query of `create_order` (orders.py lines 34-38): first
stored session with the given id and `expires_at > utcnow()`. -/
def liveSessionById (db : DB) (session_id now : Nat) : Option GuestSession :=
  db.sessions.find? (fun s =>
    s.session_id == session_id && decide (now < s.expires_at))

/-- The materialization try/except of `create_order` (orders.py lines
74-88): the order header was already committed into `db1`; on a
`ValueError` the `rollback` discards only the uncommitted item and
modifier-selection rows, so the store stays at `db1` — header included;
on success the second `commit` publishes the new rows. -/
def materialize_and_commit (db1 : DB) (order_id : Nat) (now : Nat)
    (items : List LineItem) : DB × Option CatalogError :=
  match create_order_items db1 order_id now items with
  | .error e => (db1, some e)
  | .ok db2 => (db2, none)

/-- `create_order` (orders.py lines 27-94): validate the session, check
the table id, price the request, commit the order header with
status `"pending"`, then materialize the items (see
`materialize_and_commit` for the partial-commit behaviour). -/
def create_order (db : DB) (now : Nat) (order_data : OrderCreate) :
    DB × Except ApiError OrderResponse :=
  match liveSessionById db order_data.session_id now with
  | none => (db, .error .sessionNotFound)
  | some guest_session =>
    if guest_session.table_id ≠ order_data.table_id then
      (db, .error .tableMismatch)
    else
      match calculate_order_total db order_data.items none with
      | .error e => (db, .error (.badRequest e))
      | .ok (subtotal, tax, total_amount) =>
        let new_order : Order :=
          ⟨db.nextOrderId, order_data.session_id, order_data.table_id,
           "pending", subtotal, tax, total_amount, order_data.payment_method,
           now, now⟩
        let db1 : DB :=
          {db with orders := db.orders ++ [new_order],
                   nextOrderId := db.nextOrderId + 1}
        match materialize_and_commit db1 new_order.id now order_data.items with
        | (dbf, some e) => (dbf, .error (.badRequest e))
        | (dbf, none) =>
            (dbf, .ok ⟨new_order.id, new_order.status, new_order.total_amount⟩)

/-- In-place update of an ORM `Order` row: replace the row with the same
primary key. -/
def setOrder (db : DB) (o : Order) : DB :=
  {db with orders := db.orders.map (fun x => if x.id == o.id then o else x)}

/-- Body of `update_order` after validation (orders.py lines 120-159):
price the new lines in append mode, write the new totals and `updated_at`
onto the header, materialize only the new lines, then commit.  A
`ValueError` rolls back the whole uncommitted transaction — header update
and item inserts alike — leaving the store unchanged. -/
def update_order_apply (db : DB) (now : Nat) (existing_order : Order)
    (items : List LineItem) : DB × Except ApiError OrderResponse :=
  match calculate_order_total db items (some existing_order) with
  | .error e => (db, .error (.badRequest e))
  | .ok (subtotal, tax, total_amount) =>
    let updated : Order :=
      {existing_order with subtotal := subtotal, tax := tax,
                           total_amount := total_amount, updated_at := now}
    match create_order_items (setOrder db updated) existing_order.id now items with
    | .error e => (db, .error (.badRequest e))
    | .ok db2 => (db2, .ok ⟨existing_order.id, updated.status, total_amount⟩)

/-- `update_order` (orders.py lines 97-159): 404 when the order id is
absent, 400 when its status is not `"pending"`, otherwise price and
materialize the appended lines. -/
def update_order (db : DB) (now : Nat) (order_id : Nat)
    (items : List LineItem) : DB × Except ApiError OrderResponse :=
  match findOrder db order_id with
  | none => (db, .error .orderNotFound)
  | some existing_order =>
    if existing_order.status ≠ "pending" then
      (db, .error (.invalidStatus existing_order.status))
    else update_order_apply db now existing_order items

/-- Errors of `get_restaurant_menu` (restaurants.py): the 404 for an
unknown slug, and the uncaught Python `KeyError` that
`modifiers_dict[mod_id]` raises when a junction row references a modifier
not belonging to the restaurant. -/
inductive MenuErr where
  | restaurantNotFound
  | keyError
deriving DecidableEq

/-- One `{id, name, price}` modifier record of the menu response. -/
structure ModEntry where
  id : Nat
  name : String
  price : ℚ
deriving DecidableEq

/-- `MenuItemResponse` (models.py). -/
structure MenuItemResponse where
  id : Nat
  name : String
  description : Option String
  category : String
  price : ℚ
  available : Bool
  modifiers : Option (List ModEntry)
deriving DecidableEq

/-- The `restaurant` record of `MenuResponse`. -/
structure RestaurantInfo where
  id : Nat
  slug : String
  name : String
deriving DecidableEq

/-- `MenuResponse` (models.py). -/
structure MenuResponse where
  restaurant : RestaurantInfo
  items : List MenuItemResponse
deriving DecidableEq

/-- The `ORDER BY (category, name)` relation of the menu query:
lexicographic on (category, name). -/
def menuLe (a b : MenuItem) : Prop :=
  a.category < b.category ∨ (a.category = b.category ∧ a.name ≤ b.name)

instance : DecidableRel menuLe := fun a b => by
  unfold menuLe
  exact inferInstance

instance : IsTotal MenuItem menuLe where
  total a b := by
    rcases lt_trichotomy a.category b.category with h | h | h
    · exact Or.inl (Or.inl h)
    · rcases le_total a.name b.name with hn | hn
      · exact Or.inl (Or.inr ⟨h, hn⟩)
      · exact Or.inr (Or.inr ⟨h.symm, hn⟩)
    · exact Or.inr (Or.inl h)

instance : IsTrans MenuItem menuLe where
  trans a b c hab hbc := by
    rcases hab with hab | ⟨hab, hab'⟩
    · rcases hbc with hbc | ⟨hbc, _⟩
      · exact Or.inl (hab.trans hbc)
      · exact Or.inl (hbc ▸ hab)
    · rcases hbc with hbc | ⟨hbc, hbc'⟩
      · exact Or.inl (hab ▸ hbc)
      · exact Or.inr ⟨hab.trans hbc, hab'.trans hbc'⟩

/-- The modifier ids `item_mod_map` associates with a menu item
(restaurants.py lines 37-43): the `modifier_id`s of all junction rows for
that item id, in row order; the item is a key of the map iff this list is
nonempty. -/
def itemModifierIds (db : DB) (menu_item_id : Nat) : List Nat :=
  (db.menuItemModifiers.filter (fun im => im.menu_item_id == menu_item_id)).map
    (fun im => im.modifier_id)

/-- The modifier-record comprehension (restaurants.py lines 50-57):
`modifiers_dict` holds the restaurant's modifiers keyed by id, and a
missing key raises `KeyError`. -/
def buildModEntries (rmods : List Modifier) (mod_ids : List Nat) :
    Except MenuErr (List ModEntry) :=
  match mod_ids with
  | [] => .ok []
  | mod_id :: rest =>
    match rmods.find? (fun md => md.id == mod_id) with
    | none => .error .keyError
    | some modifier =>
      match buildModEntries rmods rest with
      | .error e => .error e
      | .ok entries => .ok (⟨mod_id, modifier.name, modifier.price⟩ :: entries)

/-- One iteration of the response loop (restaurants.py lines 47-67):
`modifiers` stays `None` when the item id is not a key of `item_mod_map`,
i.e. when the item has no junction rows. -/
def buildItemEntry (db : DB) (rmods : List Modifier) (item : MenuItem) :
    Except MenuErr MenuItemResponse :=
  match itemModifierIds db item.id with
  | [] => .ok ⟨item.id, item.name, item.description, item.category,
               item.price, item.available, none⟩
  | mod_ids =>
    match buildModEntries rmods mod_ids with
    | .error e => .error e
    | .ok entries => .ok ⟨item.id, item.name, item.description, item.category,
                          item.price, item.available, some entries⟩

/-- The response loop over the ordered available items. -/
def buildItemEntries (db : DB) (rmods : List Modifier) (ms : List MenuItem) :
    Except MenuErr (List MenuItemResponse) :=
  match ms with
  | [] => .ok []
  | item :: rest =>
    match buildItemEntry db rmods item with
    | .error e => .error e
    | .ok entry =>
      match buildItemEntries db rmods rest with
      | .error e => .error e
      | .ok entries => .ok (entry :: entries)

/-- `get_restaurant_menu` (restaurants.py lines 10-76): 404 for an unknown
slug; otherwise the restaurant's available items ordered by
(category, name) — the SQL `ORDER BY` is modelled by a sort w.r.t.
`menuLe` — each carrying its modifier records or `None`. -/
def get_restaurant_menu (db : DB) (slug : String) : Except MenuErr MenuResponse :=
  match db.restaurants.find? (fun r => r.slug == slug) with
  | none => .error .restaurantNotFound
  | some restaurant =>
    match buildItemEntries db
        (db.modifiers.filter (fun md => md.restaurant_id == restaurant.id))
        (List.insertionSort menuLe (db.menuItems.filter
          (fun m => m.restaurant_id == restaurant.id && m.available))) with
    | .error e => .error e
    | .ok items =>
        .ok ⟨⟨restaurant.id, restaurant.slug, restaurant.name⟩, items⟩

/-- A menu-response entry carries exactly the fields of a given catalog
item, with `modifiers = none` precisely when the item has no junction
rows and never an empty modifier list. -/
def entryMatches (db : DB) (item : MenuItem) (e : MenuItemResponse) : Prop :=
  e.id = item.id ∧ e.name = item.name ∧ e.description = item.description ∧
  e.category = item.category ∧ e.price = item.price ∧
  e.available = item.available ∧
  (e.modifiers = none ↔ itemModifierIds db item.id = []) ∧
  (∀ l, e.modifiers = some l → l ≠ [])

/-! ### Concrete data for witnesses

The catalog mirrors the fixture of `backend/tests/test_orders.py`:
one restaurant, two menu items (burger 15.00, salad 10.00), two modifiers
(2.50 and 3.00), the first item carrying both modifiers, and one guest
session for table "5" expiring at time 8200. -/

def exDB : DB where
  restaurants := [⟨1, "test-restaurant", "Test Restaurant"⟩]
  menuItems := [⟨1, 1, "Test Burger", none, "mains", 15, true⟩,
                ⟨2, 1, "Test Salad", none, "starters", 10, true⟩]
  modifiers := [⟨1, 1, "Extra Cheese", 5/2⟩, ⟨2, 1, "Add Bacon", 3⟩]
  menuItemModifiers := [⟨1, 1⟩, ⟨1, 2⟩]
  sessions := [⟨100, "test-restaurant", "5", 8200, 1000⟩]
  orders := []
  orderItems := []
  orderItemModifiers := []
  nextOrderId := 1
  nextOrderItemId := 1

/-- Burger with extra cheese, and two salads. -/
def exLines : List LineItem := [⟨1, 1, [1], none⟩, ⟨2, 2, [], none⟩]

/-- A request whose first line references the absent modifier 7 and whose
second line references the absent menu item 42. -/
def exBadLines : List LineItem := [⟨1, 1, [7], none⟩, ⟨42, 1, [], none⟩]

/-- A pending and a completed order for the update-order witnesses. -/
def exOrderPending : Order := ⟨1, 100, "5", "pending", 10, 1/2, 21/2, "cash", 500, 500⟩

def exOrderDone : Order := ⟨2, 100, "5", "completed", 10, 1/2, 21/2, "card", 600, 600⟩

def exDB2 : DB :=
  {exDB with orders := [exOrderPending, exOrderDone], nextOrderId := 3}

/-- The expected store after appending `exLines` to order 1 of `exDB2` at
time 2000: subtotal 10 + 37.5 = 47.5, tax 2.375, total 49.875, two new
item rows with price snapshots and one modifier-selection row. -/
def exDB3 : DB :=
  {exDB2 with
    orders := [⟨1, 100, "5", "pending", 95/2, 19/8, 399/8, "cash", 500, 2000⟩,
               exOrderDone],
    orderItems := [⟨1, 1, 1, 1, 15, none, 2000⟩, ⟨2, 1, 2, 2, 10, none, 2000⟩],
    orderItemModifiers := [⟨1, 1, 5/2⟩],
    nextOrderItemId := 3}

/-- The store of a create-order request for one burger right after the
header commit of orders.py line 71, in a run where a concurrent
transaction deleted menu item 1 between the two commits: the header for
order 1 is already durable, and the upcoming materialization of the line
`item_id = 1` must fail. -/
def exHeader : Order := ⟨1, 100, "5", "pending", 15, 3/4, 63/4, "cash", 1000, 1000⟩

def exDBAfterHeader : DB :=
  {exDB with menuItems := [⟨2, 1, "Test Salad", none, "starters", 10, true⟩],
             orders := [exHeader], nextOrderId := 2}

/-! ### Pricing Engine lemmas -/

lemma priceModifiers_ok (db : DB) (q : Int) (mods : List Nat) (acc : ℚ)
    (h : ∀ m ∈ mods, (findModifier db m).isSome) :
    priceModifiers db q mods acc = .ok (acc + (mods.map (modPrice db q)).sum) := by
  induction mods generalizing acc with
  | nil => simp [priceModifiers]
  | cons m rest ih =>
    obtain ⟨md, hmd⟩ := Option.isSome_iff_exists.mp (h m (by simp))
    rw [priceModifiers]
    simp only [hmd]
    rw [ih _ (fun x hx => h x (by simp [hx]))]
    simp only [List.map_cons, List.sum_cons, modPrice, hmd, Except.ok.injEq]
    ring

lemma priceModifiers_ok_refs (db : DB) (q : Int) (mods : List Nat) (acc s : ℚ)
    (h : priceModifiers db q mods acc = .ok s) :
    ∀ m ∈ mods, (findModifier db m).isSome := by
  induction mods generalizing acc with
  | nil => simp
  | cons m rest ih =>
    intro x hx
    rw [priceModifiers] at h
    cases hmd : findModifier db m with
    | none => rw [hmd] at h; exact absurd h (by simp)
    | some md =>
      simp only [hmd] at h
      rcases List.mem_cons.mp hx with rfl | hx'
      · simp [hmd]
      · exact ih _ h x hx'

lemma priceModifiers_error (db : DB) (q : Int) (mods : List Nat) (acc : ℚ)
    (e : CatalogError) (h : priceModifiers db q mods acc = .error e) :
    ∃ m ∈ mods, e = .modifierNotFound m ∧ findModifier db m = none := by
  induction mods generalizing acc with
  | nil => simp [priceModifiers] at h
  | cons m rest ih =>
    rw [priceModifiers] at h
    cases hmd : findModifier db m with
    | none =>
      simp only [hmd, Except.error.injEq] at h
      exact ⟨m, by simp, h.symm, hmd⟩
    | some md =>
      simp only [hmd] at h
      obtain ⟨x, hx, hex⟩ := ih _ h
      exact ⟨x, by simp [hx], hex⟩

lemma priceItems_ok (db : DB) (items : List LineItem) (acc : ℚ)
    (h : refsExist db items) :
    priceItems db items acc = .ok (acc + itemsTotal db items) := by
  induction items generalizing acc with
  | nil => simp [priceItems, itemsTotal]
  | cons l rest ih =>
    obtain ⟨mi, hmi⟩ := Option.isSome_iff_exists.mp (h l (by simp)).1
    rw [priceItems]
    simp only [hmi]
    rw [priceModifiers_ok db l.quantity l.modifier_ids _ ((h l (by simp)).2)]
    simp only []
    rw [ih _ (fun x hx => h x (by simp [hx]))]
    simp only [itemsTotal, List.map_cons, List.sum_cons, linePrice, itemPrice, hmi,
               Except.ok.injEq]
    ring

lemma priceItems_ok_refs (db : DB) (items : List LineItem) (acc s : ℚ)
    (h : priceItems db items acc = .ok s) : refsExist db items := by
  induction items generalizing acc with
  | nil => intro l hl; simp at hl
  | cons l rest ih =>
    rw [priceItems] at h
    cases hmi : findMenuItem db l.item_id with
    | none => rw [hmi] at h; exact absurd h (by simp)
    | some mi =>
      simp only [hmi] at h
      cases hpm : priceModifiers db l.quantity l.modifier_ids
          (acc + mi.price * (l.quantity : ℚ)) with
      | error e => rw [hpm] at h; exact absurd h (by simp)
      | ok s1 =>
        simp only [hpm] at h
        intro x hx
        rcases List.mem_cons.mp hx with rfl | hx'
        · exact ⟨by simp [hmi], priceModifiers_ok_refs _ _ _ _ _ hpm⟩
        · exact ih _ h x hx'

lemma priceItems_error (db : DB) (items : List LineItem) (acc : ℚ)
    (e : CatalogError) (h : priceItems db items acc = .error e) :
    (∃ l ∈ items, e = .itemNotFound l.item_id ∧ findMenuItem db l.item_id = none) ∨
    (∃ l ∈ items, ∃ m ∈ l.modifier_ids,
      e = .modifierNotFound m ∧ findModifier db m = none) := by
  induction items generalizing acc with
  | nil => simp [priceItems] at h
  | cons l rest ih =>
    rw [priceItems] at h
    cases hmi : findMenuItem db l.item_id with
    | none =>
      simp only [hmi, Except.error.injEq] at h
      exact Or.inl ⟨l, by simp, h.symm, hmi⟩
    | some mi =>
      simp only [hmi] at h
      cases hpm : priceModifiers db l.quantity l.modifier_ids
          (acc + mi.price * (l.quantity : ℚ)) with
      | error e1 =>
        simp only [hpm, Except.error.injEq] at h
        obtain ⟨m, hm, hem, hfm⟩ := priceModifiers_error _ _ _ _ _ hpm
        exact Or.inr ⟨l, by simp, m, hm, h ▸ hem, hfm⟩
      | ok s1 =>
        simp only [hpm] at h
        rcases ih _ h with ⟨x, hx, hp⟩ | ⟨x, hx, hp⟩
        · exact Or.inl ⟨x, by simp [hx], hp⟩
        · exact Or.inr ⟨x, by simp [hx], hp⟩

/-- Evaluation of `calculate_order_total` when every reference exists. -/
lemma calculate_order_total_ok (db : DB) (items : List LineItem)
    (existing_order : Option Order) (h : refsExist db items) :
    calculate_order_total db items existing_order =
      .ok (seedOf existing_order + itemsTotal db items,
           (seedOf existing_order + itemsTotal db items) * TAX_RATE,
           seedOf existing_order + itemsTotal db items +
             (seedOf existing_order + itemsTotal db items) * TAX_RATE) := by
  rw [calculate_order_total, priceItems_ok db items _ h]

/-- C2: for every list of line items in which every referenced menu item
and modifier exists, and every optional existing order,
`calculate_order_total` returns `(subtotal, tax, total)` where
`subtotal` is the existing order's subtotal (or 0) plus, per line, catalog
price × quantity plus each referenced modifier's price × quantity,
`tax = subtotal * TAX_RATE` (`TAX_RATE = 0.05`), and
`total = subtotal + tax`, all in exact rational arithmetic. -/
theorem calculate_order_total_correct (db : DB) (items : List LineItem)
    (existing_order : Option Order) (h : refsExist db items) :
    calculate_order_total db items existing_order =
      .ok (seedOf existing_order + itemsTotal db items,
           (seedOf existing_order + itemsTotal db items) * TAX_RATE,
           seedOf existing_order + itemsTotal db items +
             (seedOf existing_order + itemsTotal db items) * TAX_RATE) :=
  calculate_order_total_ok db items existing_order h

/-- Witness for C2, on the test-suite fixture: burger 15.00 with a 2.50
modifier, plus two salads at 10.00 ⇒ subtotal 37.50, tax 1.875,
total 39.375. -/
theorem calculate_order_total_correct_witness :
    refsExist exDB exLines ∧
    calculate_order_total exDB exLines none = .ok (75/2, 15/8, 315/8) := by
  have h : refsExist exDB exLines := by decide
  refine ⟨h, ?_⟩
  rw [calculate_order_total_correct exDB exLines none h]
  simp [seedOf, itemsTotal, linePrice, itemPrice, modPrice, findMenuItem,
        findModifier, exDB, exLines, TAX_RATE, List.find?]
  norm_num

/-- C9: `calculate_order_total` performs no positivity check on the
quantity: for any integer quantity `q` — zero and negative included — a
line whose references exist prices successfully, contributing
`price × q` (and `modifier_price × q`) to the subtotal. -/
theorem calculate_order_total_any_quantity (db : DB) (i : Nat) (q : Int)
    (mods : List Nat) (note : Option String) (existing_order : Option Order)
    (menu_item : MenuItem) (hi : findMenuItem db i = some menu_item)
    (hm : ∀ m ∈ mods, (findModifier db m).isSome) :
    calculate_order_total db [⟨i, q, mods, note⟩] existing_order =
      .ok (seedOf existing_order + menu_item.price * (q : ℚ) +
             (mods.map (modPrice db q)).sum,
           (seedOf existing_order + menu_item.price * (q : ℚ) +
             (mods.map (modPrice db q)).sum) * TAX_RATE,
           seedOf existing_order + menu_item.price * (q : ℚ) +
             (mods.map (modPrice db q)).sum +
             (seedOf existing_order + menu_item.price * (q : ℚ) +
               (mods.map (modPrice db q)).sum) * TAX_RATE) := by
  have h : refsExist db [⟨i, q, mods, note⟩] := by
    intro l hl
    rcases List.mem_singleton.mp hl with rfl
    exact ⟨by simp [hi], hm⟩
  rw [calculate_order_total_ok db _ existing_order h]
  simp only [itemsTotal, List.map_cons, List.map_nil, List.sum_cons, List.sum_nil,
             linePrice, itemPrice, hi, Except.ok.injEq, Prod.mk.injEq]
  refine ⟨by ring, by ring, by ring⟩

/-- Witness for C9: a line with quantity −2 prices without error, with
`15.00 × (−2) + 2.50 × (−2) = −35` as subtotal. -/
theorem calculate_order_total_any_quantity_witness :
    findMenuItem exDB 1 = some ⟨1, 1, "Test Burger", none, "mains", 15, true⟩ ∧
    (∀ m ∈ [1], (findModifier exDB m).isSome) ∧
    calculate_order_total exDB [⟨1, -2, [1], none⟩] none =
      .ok (-35, -7/4, -147/4) := by
  have hi : findMenuItem exDB 1 = some ⟨1, 1, "Test Burger", none, "mains", 15, true⟩ := by
    simp [findMenuItem, exDB, List.find?]
  have hm : ∀ m ∈ [1], (findModifier exDB m).isSome := by decide
  refine ⟨hi, hm, ?_⟩
  rw [calculate_order_total_any_quantity exDB 1 (-2) [1] none none _ hi hm]
  simp [seedOf, modPrice, findModifier, exDB, List.find?, TAX_RATE]
  norm_num

/-- C5 as frozen is false at this input: the second line references the
absent menu item 42 — so by the claim the call should fail with
`ItemNotFound` — yet the first line's absent modifier 7 is hit first and
the call fails with `ModifierNotFound 7`. -/
theorem calculate_order_total_error_kind_counterexample :
    ((⟨42, 1, [], none⟩ : LineItem) ∈ exBadLines ∧ findMenuItem exDB 42 = none) ∧
    calculate_order_total exDB exBadLines none = .error (.modifierNotFound 7) := by
  refine ⟨⟨by decide, by decide⟩, ?_⟩
  simp [calculate_order_total, priceItems, priceModifiers, seedOf, findMenuItem,
        findModifier, exDB, exBadLines, List.find?]

/-- C5 (amended): `calculate_order_total` fails exactly when some
referenced id is absent; an `ItemNotFound i` error always reports an
absent referenced menu item `i` and a `ModifierNotFound m` error an
absent referenced modifier `m`; when every referenced id exists the call
returns totals without error. -/
theorem calculate_order_total_error_spec (db : DB) (items : List LineItem)
    (existing_order : Option Order) :
    (∀ i, calculate_order_total db items existing_order = .error (.itemNotFound i) →
        ∃ l ∈ items, l.item_id = i ∧ findMenuItem db i = none) ∧
    (∀ m, calculate_order_total db items existing_order = .error (.modifierNotFound m) →
        ∃ l ∈ items, m ∈ l.modifier_ids ∧ findModifier db m = none) ∧
    (refsExist db items →
        ∃ t, calculate_order_total db items existing_order = .ok t) ∧
    (∀ t, calculate_order_total db items existing_order = .ok t →
        refsExist db items) := by
  refine ⟨?_, ?_, ?_, ?_⟩
  · intro i h
    cases hpi : priceItems db items (seedOf existing_order) with
    | error e =>
      simp only [calculate_order_total, hpi, Except.error.injEq] at h
      subst h
      rcases priceItems_error db items _ _ hpi with ⟨l, hl, he, hf⟩ | ⟨l, _, m, _, he, _⟩
      · obtain ⟨rfl⟩ : i = l.item_id := by injection he
        exact ⟨l, hl, rfl, hf⟩
      · exact absurd he (by simp)
    | ok s => simp [calculate_order_total, hpi] at h
  · intro m h
    cases hpi : priceItems db items (seedOf existing_order) with
    | error e =>
      simp only [calculate_order_total, hpi, Except.error.injEq] at h
      subst h
      rcases priceItems_error db items _ _ hpi with ⟨l, _, he, _⟩ | ⟨l, hl, x, hx, he, hf⟩
      · exact absurd he (by simp)
      · obtain ⟨rfl⟩ : m = x := by injection he
        exact ⟨l, hl, hx, hf⟩
    | ok s => simp [calculate_order_total, hpi] at h
  · intro h
    exact ⟨_, calculate_order_total_ok db items existing_order h⟩
  · intro t h
    cases hpi : priceItems db items (seedOf existing_order) with
    | error e => simp [calculate_order_total, hpi] at h
    | ok s => exact priceItems_ok_refs db items _ s hpi

/-- Witness for the amended C5: on the fixture every reference of
`exLines` exists and the call succeeds. -/
theorem calculate_order_total_error_spec_witness :
    refsExist exDB exLines ∧
    ∃ t, calculate_order_total exDB exLines none = .ok t :=
  ⟨by decide, (calculate_order_total_error_spec exDB exLines none).2.2.1 (by decide)⟩

/-! ### Session Manager lemmas -/

lemma find?_mono_of_imp {α : Type} {p q : α → Bool} {l : List α} {s : α}
    (himp : ∀ x, q x = true → p x = true)
    (hf : l.find? p = some s) (hq : q s = true) : l.find? q = some s := by
  induction l with
  | nil => simp at hf
  | cons a t ih =>
    cases hpa : p a with
    | true =>
      rw [List.find?_cons_of_pos _ hpa] at hf
      obtain rfl : a = s := by injection hf
      rw [List.find?_cons_of_pos _ hq]
    | false =>
      have hqa : q a = false := by
        cases hqa : q a with
        | true => exact absurd (himp a hqa) (by simp [hpa])
        | false => rfl
      rw [List.find?_cons_of_neg _ (by simp [hpa])] at hf
      rw [List.find?_cons_of_neg _ (by simp [hqa])]
      exact ih hf

lemma find?_none_mono_of_imp {α : Type} {p q : α → Bool} {l : List α}
    (himp : ∀ x, q x = true → p x = true)
    (hf : l.find? p = none) : l.find? q = none := by
  rw [List.find?_eq_none] at hf ⊢
  intro x hx hqx
  exact hf x hx (himp x hqx)

lemma find?_append_of_none {α : Type} {p : α → Bool} {l1 l2 : List α}
    (h : l1.find? p = none) : (l1 ++ l2).find? p = l2.find? p := by
  induction l1 with
  | nil => simp
  | cons a t ih =>
    rw [List.find?_eq_none] at h
    have hpa : p a = false := by
      cases hpa : p a with
      | true => exact absurd (h a (by simp)) (by simp [hpa])
      | false => rfl
    rw [List.cons_append, List.find?_cons_of_neg _ (by simp [hpa])]
    exact ih (List.find?_eq_none.mpr (fun x hx => h x (by simp [hx])))

/-- At a later clock, matching the live-session filter is harder: a
session live at `now'` with `now ≤ now'` is live at `now`. -/
lemma liveSessionPred_mono {now now' : Nat} (h : now ≤ now')
    (req : SessionCreate) (x : GuestSession) :
    liveSessionPred now' req x = true → liveSessionPred now req x = true := by
  simp only [liveSessionPred, Bool.and_eq_true, decide_eq_true_eq]
  exact fun ⟨⟨h1, h2⟩, h3⟩ => ⟨⟨h1, h2⟩, lt_of_le_of_lt h h3⟩

/-- C4: `create_session` (i) returns a stored live session for the exact
(restaurant_slug, table_id) pair unchanged — same identifier, same
expiry, store untouched; (ii) otherwise persists a new session with the
freshly generated identifier and expiry `now + 2h`; and (iii) is
idempotent: a second call for the same pair within the expiry window
returns the identical session identifier. -/
theorem create_session_spec (db : DB) (now fresh : Nat) (req : SessionCreate) :
    (∀ s, db.sessions.find? (liveSessionPred now req) = some s →
        create_session db now fresh req = (db, ⟨s.session_id, s.expires_at⟩)) ∧
    (db.sessions.find? (liveSessionPred now req) = none →
        create_session db now fresh req =
          ({db with sessions := db.sessions ++
              [⟨fresh, req.restaurant_slug, req.table_id, now + 7200, now⟩]},
           ⟨fresh, now + 7200⟩)) ∧
    (∀ now' fresh2, now ≤ now' →
        now' < (create_session db now fresh req).2.expires_at →
        (create_session (create_session db now fresh req).1 now' fresh2 req).2.session_id
          = (create_session db now fresh req).2.session_id) := by
  refine ⟨?_, ?_, ?_⟩
  · intro s hf
    rw [create_session, hf]
  · intro hf
    rw [create_session, hf]
  · intro now' fresh2 hle hlt
    cases hf : db.sessions.find? (liveSessionPred now req) with
    | some s =>
      have h1 : create_session db now fresh req = (db, ⟨s.session_id, s.expires_at⟩) := by
        rw [create_session, hf]
      rw [h1] at hlt ⊢
      have hps := List.find?_some hf
      simp only [liveSessionPred, Bool.and_eq_true, decide_eq_true_eq] at hps
      have hqs : liveSessionPred now' req s = true := by
        simp only [liveSessionPred, Bool.and_eq_true, decide_eq_true_eq]
        exact ⟨hps.1, hlt⟩
      have hf' : db.sessions.find? (liveSessionPred now' req) = some s :=
        find?_mono_of_imp (liveSessionPred_mono hle req) hf hqs
      rw [create_session, hf']
    | none =>
      have h1 : create_session db now fresh req =
          ({db with sessions := db.sessions ++
              [⟨fresh, req.restaurant_slug, req.table_id, now + 7200, now⟩]},
           ⟨fresh, now + 7200⟩) := by
        rw [create_session, hf]
      rw [h1] at hlt ⊢
      have hnone : db.sessions.find? (liveSessionPred now' req) = none :=
        find?_none_mono_of_imp (liveSessionPred_mono hle req) hf
      have hnew : liveSessionPred now' req
          ⟨fresh, req.restaurant_slug, req.table_id, now + 7200, now⟩ = true := by
        simp [liveSessionPred, hlt]
      have hf' : ({db with sessions := db.sessions ++
            [⟨fresh, req.restaurant_slug, req.table_id, now + 7200, now⟩]} : DB).sessions.find?
            (liveSessionPred now' req) =
          some ⟨fresh, req.restaurant_slug, req.table_id, now + 7200, now⟩ := by
        show (db.sessions ++ _).find? _ = _
        rw [find?_append_of_none hnone, List.find?_cons_of_pos _ hnew]
      rw [create_session, hf']

/-- Witness for C4: at time 1000 the fixture already stores a live session
for ("test-restaurant", "5"), and `create_session` returns it unchanged. -/
theorem create_session_spec_witness :
    exDB.sessions.find? (liveSessionPred 1000 ⟨"test-restaurant", "5"⟩) =
      some ⟨100, "test-restaurant", "5", 8200, 1000⟩ ∧
    create_session exDB 1000 777 ⟨"test-restaurant", "5"⟩ = (exDB, ⟨100, 8200⟩) := by
  have hf : exDB.sessions.find? (liveSessionPred 1000 ⟨"test-restaurant", "5"⟩) =
      some ⟨100, "test-restaurant", "5", 8200, 1000⟩ := by
    simp [exDB, liveSessionPred, List.find?]
  exact ⟨hf, (create_session_spec exDB 1000 777 ⟨"test-restaurant", "5"⟩).1 _ hf⟩

/-- C10: `create_session` never consults the `Restaurant` table — its
response and the resulting session store are unchanged under any
replacement of the restaurant rows (in particular an empty table), it
never fails, and the identifier it returns always belongs to a persisted
session. -/
theorem create_session_ignores_restaurants (db : DB) (now fresh : Nat)
    (req : SessionCreate) (rs : List Restaurant) :
    (create_session {db with restaurants := rs} now fresh req).2 =
        (create_session db now fresh req).2 ∧
    (create_session {db with restaurants := rs} now fresh req).1.sessions =
        (create_session db now fresh req).1.sessions ∧
    (create_session db now fresh req).2.session_id ∈
        (create_session db now fresh req).1.sessions.map GuestSession.session_id := by
  cases hf : db.sessions.find? (liveSessionPred now req) with
  | some s =>
    have hmem : s ∈ db.sessions := List.mem_of_find?_eq_some hf
    refine ⟨?_, ?_, ?_⟩
    · simp [create_session, hf]
    · simp [create_session, hf]
    · simp only [create_session, hf, List.mem_map]
      exact ⟨s, hmem, rfl⟩
  | none =>
    refine ⟨?_, ?_, ?_⟩ <;>
      · simp [create_session, hf, List.mem_map]

/-! ### Order Lifecycle Controller: validation -/

/-- C7: `create_order` fails with `sessionNotFound` when no stored session
with the request's id has expiry strictly after `now`, and with
`tableMismatch` when the live session's table differs from the request's;
in both cases the store is unchanged, and since the request's items are
arbitrary here, the outcome is independent of them — no pricing
influences it. -/
theorem create_order_validation (db : DB) (now : Nat) (order_data : OrderCreate) :
    ((∀ s ∈ db.sessions, s.session_id = order_data.session_id →
        ¬ now < s.expires_at) →
      create_order db now order_data = (db, .error .sessionNotFound)) ∧
    (∀ gs, liveSessionById db order_data.session_id now = some gs →
        gs.table_id ≠ order_data.table_id →
        create_order db now order_data = (db, .error .tableMismatch)) := by
  constructor
  · intro h
    have hnone : liveSessionById db order_data.session_id now = none := by
      rw [liveSessionById, List.find?_eq_none]
      intro s hs
      simp only [Bool.and_eq_true, beq_iff_eq, decide_eq_true_eq, not_and]
      exact h s hs
    rw [create_order, hnone]
  · intro gs hgs hne
    rw [create_order, hgs]
    simp only [if_pos hne]

/-- Witness for C7: at time 9000 the fixture session (expiry 8200) is
expired and create-order is refused with the store unchanged. -/
theorem create_order_validation_witness :
    (∀ s ∈ exDB.sessions, s.session_id = 100 → ¬ 9000 < s.expires_at) ∧
    create_order exDB 9000 ⟨100, "5", exLines, "cash"⟩ =
      (exDB, .error .sessionNotFound) := by
  have h : ∀ s ∈ exDB.sessions, s.session_id = 100 → ¬ 9000 < s.expires_at := by
    decide
  exact ⟨h, (create_order_validation exDB 9000 ⟨100, "5", exLines, "cash"⟩).1 h⟩

/-- C6: `update_order` fails with `orderNotFound` when the order id is
absent, with `invalidStatus` when the stored status is not `"pending"`,
and otherwise hands the request to the pricing-and-materialization body
`update_order_apply`. -/
theorem update_order_validation (db : DB) (now : Nat) (order_id : Nat)
    (items : List LineItem) :
    (findOrder db order_id = none →
        update_order db now order_id items = (db, .error .orderNotFound)) ∧
    (∀ o, findOrder db order_id = some o → o.status ≠ "pending" →
        update_order db now order_id items = (db, .error (.invalidStatus o.status))) ∧
    (∀ o, findOrder db order_id = some o → o.status = "pending" →
        update_order db now order_id items = update_order_apply db now o items) := by
  refine ⟨?_, ?_, ?_⟩
  · intro h
    rw [update_order, h]
  · intro o ho hs
    rw [update_order, ho]
    simp only [if_pos hs]
  · intro o ho hs
    rw [update_order, ho]
    simp only [hs]
    simp

/-- Witness for C6: order 99 does not exist in the fixture, and order 2
is `"completed"`; both append attempts are refused. -/
theorem update_order_validation_witness :
    findOrder exDB2 99 = none ∧
    update_order exDB2 1000 99 exLines = (exDB2, .error .orderNotFound) ∧
    findOrder exDB2 2 = some exOrderDone ∧
    update_order exDB2 1000 2 exLines =
      (exDB2, .error (.invalidStatus "completed")) := by
  have h99 : findOrder exDB2 99 = none := by
    simp [findOrder, exDB2, exDB, exOrderPending, exOrderDone, List.find?]
  have h2 : findOrder exDB2 2 = some exOrderDone := by
    simp [findOrder, exDB2, exDB, exOrderPending, exOrderDone, List.find?]
  refine ⟨h99, (update_order_validation exDB2 1000 99 exLines).1 h99, h2, ?_⟩
  exact (update_order_validation exDB2 1000 2 exLines).2.1 exOrderDone h2 (by decide)

/-! ### Order Item Materializer frame lemmas -/

lemma insertOrderItemModifiers_ok_frame (db : DB) (oiid : Nat)
    (mods : List Nat) (db2 : DB)
    (h : insertOrderItemModifiers db oiid mods = .ok db2) :
    db2.orders = db.orders ∧ db2.orderItems = db.orderItems ∧
    (∃ δ, db2.orderItemModifiers = db.orderItemModifiers ++ δ) := by
  induction mods generalizing db with
  | nil =>
    rw [insertOrderItemModifiers] at h
    obtain rfl : db = db2 := by injection h
    exact ⟨rfl, rfl, ⟨[], by simp⟩⟩
  | cons m rest ih =>
    rw [insertOrderItemModifiers] at h
    cases hmd : findModifier db m with
    | none => rw [hmd] at h; exact absurd h (by simp)
    | some md =>
      simp only [hmd] at h
      obtain ⟨h1, h2, δ, h3⟩ := ih _ h
      refine ⟨h1, h2, ⟨⟨oiid, m, md.price⟩ :: δ, ?_⟩⟩
      rw [h3]
      simp

lemma create_order_items_ok_frame (db : DB) (oid now : Nat)
    (items : List LineItem) (db2 : DB)
    (h : create_order_items db oid now items = .ok db2) :
    db2.orders = db.orders ∧
    (∃ δ, db2.orderItems = db.orderItems ++ δ) ∧
    (∃ δ, db2.orderItemModifiers = db.orderItemModifiers ++ δ) := by
  induction items generalizing db with
  | nil =>
    rw [create_order_items] at h
    obtain rfl : db = db2 := by injection h
    exact ⟨rfl, ⟨[], by simp⟩, ⟨[], by simp⟩⟩
  | cons l rest ih =>
    rw [create_order_items] at h
    cases hmi : findMenuItem db l.item_id with
    | none => rw [hmi] at h; exact absurd h (by simp)
    | some mi =>
      simp only [hmi] at h
      cases him : insertOrderItemModifiers
          {db with
            orderItems := db.orderItems ++
                [⟨db.nextOrderItemId, oid, l.item_id, l.quantity, mi.price, l.note, now⟩],
            nextOrderItemId := db.nextOrderItemId + 1}
          db.nextOrderItemId l.modifier_ids with
      | error e => rw [him] at h; exact absurd h (by simp)
      | ok dbm =>
        simp only [him] at h
        obtain ⟨hmo, hmi2, δm, hmm⟩ := insertOrderItemModifiers_ok_frame _ _ _ _ him
        obtain ⟨ho, ⟨δi, hi⟩, δ2, h2⟩ := ih _ h
        refine ⟨by rw [ho, hmo], ?_, ?_⟩
        · refine ⟨⟨db.nextOrderItemId, oid, l.item_id, l.quantity, mi.price, l.note, now⟩
            :: δi, ?_⟩
          rw [hi, hmi2]
          simp
        · refine ⟨δm ++ δ2, ?_⟩
          rw [h2, hmm]
          simp

/-- On a pending order, `update_order` reduces to its
pricing-and-materialization body. -/
lemma update_order_eq_of_pending (db : DB) (now : Nat) (order_id : Nat)
    (items : List LineItem) (o : Order) (ho : findOrder db order_id = some o)
    (hp : o.status = "pending") :
    update_order db now order_id items = update_order_apply db now o items := by
  rw [update_order, ho]
  simp only [hp]
  simp

/-- Replacing the row with the updated header's primary key makes the
primary-key lookup return the updated header. -/
lemma find?_id_map_replace (l : List Order) (k : Nat) (o o' : Order)
    (h : l.find? (fun x => x.id == k) = some o) (hid : o'.id = o.id) :
    (l.map (fun x => if x.id == o'.id then o' else x)).find?
      (fun x => x.id == k) = some o' := by
  have hk : o.id = k := by simpa using List.find?_some h
  induction l with
  | nil => simp at h
  | cons a t ih =>
    cases hpa : (a.id == k : Bool) with
    | true =>
      simp only [List.find?_cons, hpa] at h
      obtain rfl : a = o := by injection h
      have hcondp : a.id = o'.id := hid.symm
      have hpop : o'.id = k := hid.trans hk
      simp [List.map_cons, List.find?_cons, hcondp, hpop]
    | false =>
      have hane : (a.id == o'.id) = false := by rw [hid, hk]; exact hpa
      simp only [List.find?_cons, hpa] at h
      simp only [List.map_cons, hane, Bool.false_eq_true, if_false, List.find?_cons, hpa]
      exact ih h

/-- C3: a successful append to a pending order stores
`new_subtotal = old_subtotal + Σ(new lines)` on the (same-id, still
pending) header, and only appends to the order-item and
modifier-selection tables: every row that existed before the append is
unchanged afterwards — same quantity, unit-price snapshot, note and
selections — with new rows only at the end. -/
theorem update_order_append_frame (db : DB) (now : Nat) (order_id : Nat)
    (items : List LineItem) (o : Order) (db' : DB) (resp : OrderResponse)
    (ho : findOrder db order_id = some o) (hp : o.status = "pending")
    (h : update_order db now order_id items = (db', .ok resp)) :
    (∃ o', findOrder db' order_id = some o' ∧
        o'.subtotal = o.subtotal + itemsTotal db items ∧
        o'.id = o.id ∧ o'.status = o.status) ∧
    (∃ newItems, db'.orderItems = db.orderItems ++ newItems) ∧
    (∃ newSelections,
        db'.orderItemModifiers = db.orderItemModifiers ++ newSelections) := by
  rw [update_order_eq_of_pending db now order_id items o ho hp] at h
  rw [update_order_apply] at h
  cases hct : calculate_order_total db items (some o) with
  | error e => rw [hct] at h; simp at h
  | ok t =>
    obtain ⟨st, tax, tot⟩ := t
    simp only [hct] at h
    have hrefs : refsExist db items := by
      cases hpi : priceItems db items (seedOf (some o)) with
      | error e2 => rw [calculate_order_total, hpi] at hct; exact absurd hct (by simp)
      | ok s => exact priceItems_ok_refs db items _ s hpi
    have hst : st = o.subtotal + itemsTotal db items := by
      have := calculate_order_total_ok db items (some o) hrefs
      rw [hct] at this
      have hfst := congrArg (fun x => match x with
        | Except.ok (a, _, _) => a
        | Except.error _ => 0) this
      simpa [seedOf] using hfst
    cases hci : create_order_items
        (setOrder db {o with subtotal := st, tax := tax,
                             total_amount := tot, updated_at := now})
        o.id now items with
    | error e => rw [hci] at h; simp at h
    | ok db2 =>
      simp only [hci] at h
      obtain ⟨rfl, -⟩ : db2 = db' ∧ _ := Prod.mk.injEq .. ▸ h
      obtain ⟨hfo, hItems, hSel⟩ := create_order_items_ok_frame _ _ _ _ _ hci
      refine ⟨?_, ?_, ?_⟩
      · refine ⟨{o with subtotal := st, tax := tax,
                        total_amount := tot, updated_at := now}, ?_, hst, rfl, rfl⟩
        rw [findOrder, hfo]
        exact find?_id_map_replace db.orders order_id o _ ho rfl
      · obtain ⟨δ, hδ⟩ := hItems
        exact ⟨δ, hδ⟩
      · obtain ⟨δ, hδ⟩ := hSel
        exact ⟨δ, hδ⟩

/-- Witness for C3: appending `exLines` (37.50 worth of lines) to the
pending order 1 (subtotal 10) yields the store `exDB3` with subtotal
47.50, the prior (empty) row sets as prefixes, and new rows appended. -/
theorem update_order_append_frame_witness :
    findOrder exDB2 1 = some exOrderPending ∧
    exOrderPending.status = "pending" ∧
    update_order exDB2 2000 1 exLines = (exDB3, .ok ⟨1, "pending", 399/8⟩) ∧
    (∃ o', findOrder exDB3 1 = some o' ∧
        o'.subtotal = exOrderPending.subtotal + itemsTotal exDB2 exLines ∧
        o'.id = exOrderPending.id ∧ o'.status = exOrderPending.status) ∧
    (∃ newItems, exDB3.orderItems = exDB2.orderItems ++ newItems) ∧
    (∃ newSelections,
        exDB3.orderItemModifiers = exDB2.orderItemModifiers ++ newSelections) := by
  have ho : findOrder exDB2 1 = some exOrderPending := by
    simp [findOrder, exDB2, exDB, exOrderPending, exOrderDone, List.find?]
  have h : update_order exDB2 2000 1 exLines = (exDB3, .ok ⟨1, "pending", 399/8⟩) := by
    simp [update_order, update_order_apply, findOrder, calculate_order_total,
          priceItems, priceModifiers, seedOf, findMenuItem, findModifier,
          create_order_items, insertOrderItemModifiers, setOrder, exDB3, exDB2,
          exDB, exOrderPending, exOrderDone, exLines, List.find?, TAX_RATE]
    norm_num
  obtain ⟨c1, c2, c3⟩ := update_order_append_frame exDB2 2000 1 exLines
    exOrderPending exDB3 ⟨1, "pending", 399/8⟩ ho rfl h
  exact ⟨ho, rfl, h, c1, c2, c3⟩

/-! ### C1: the header commit precedes materialization -/

/-- C1 is the intended behaviour, but the code commits the order header
(orders.py line 71) before attempting materialization, so the
`session.rollback()` of the except-branch (line 87) can only discard the
uncommitted item rows.  Evaluated at a store in which the header of order
1 is already committed and menu item 1 has since been deleted by a
concurrent transaction (the race §5 of the spec acknowledges), the
materialization step fails — and returns a store that still contains the
order-1 header with no order-item rows at all: an order header visible
without its line items. -/
theorem create_order_header_survives_failed_materialization :
    materialize_and_commit exDBAfterHeader 1 1000 [⟨1, 1, [], none⟩] =
      (exDBAfterHeader, some (.itemNotFound 1)) ∧
    findOrder exDBAfterHeader 1 = some exHeader ∧
    exDBAfterHeader.orderItems = [] := by
  refine ⟨?_, ?_, rfl⟩
  · simp [materialize_and_commit, create_order_items, findMenuItem,
          exDBAfterHeader, exDB, List.find?]
  · simp [findOrder, exDBAfterHeader, exDB, exHeader, List.find?]

/-! ### Menu endpoint lemmas -/

lemma buildModEntries_ok (rmods : List Modifier) (mod_ids : List Nat)
    (h : ∀ m ∈ mod_ids, (rmods.find? (fun md => md.id == m)).isSome) :
    ∃ entries, buildModEntries rmods mod_ids = .ok entries ∧
      entries.length = mod_ids.length := by
  induction mod_ids with
  | nil => exact ⟨[], by rw [buildModEntries], rfl⟩
  | cons m rest ih =>
    obtain ⟨md, hmd⟩ := Option.isSome_iff_exists.mp (h m (by simp))
    obtain ⟨entries, he, hlen⟩ := ih (fun x hx => h x (by simp [hx]))
    refine ⟨⟨m, md.name, md.price⟩ :: entries, ?_, by simp [hlen]⟩
    rw [buildModEntries]
    simp only [hmd, he]

lemma buildItemEntry_ok (db : DB) (rmods : List Modifier) (item : MenuItem)
    (h : ∀ m ∈ itemModifierIds db item.id,
        (rmods.find? (fun md => md.id == m)).isSome) :
    ∃ e, buildItemEntry db rmods item = .ok e ∧ entryMatches db item e := by
  cases hmi : itemModifierIds db item.id with
  | nil =>
    refine ⟨⟨item.id, item.name, item.description, item.category, item.price,
            item.available, none⟩, ?_, ?_⟩
    · simp only [buildItemEntry, hmi]
    · exact ⟨rfl, rfl, rfl, rfl, rfl, rfl, by simp [hmi], by simp⟩
  | cons m rest =>
    have hall : ∀ x ∈ m :: rest, (rmods.find? (fun md => md.id == x)).isSome := by
      rw [← hmi]
      exact h
    obtain ⟨entries, he, hlen⟩ := buildModEntries_ok rmods (m :: rest) hall
    refine ⟨⟨item.id, item.name, item.description, item.category, item.price,
            item.available, some entries⟩, ?_, ?_⟩
    · simp only [buildItemEntry, hmi, he]
    · refine ⟨rfl, rfl, rfl, rfl, rfl, rfl, by simp [hmi], ?_⟩
      intro l hl hnil
      obtain rfl : entries = l := by injection hl
      rw [hnil] at hlen
      simp at hlen

lemma buildItemEntries_ok (db : DB) (rmods : List Modifier) (ms : List MenuItem)
    (h : ∀ item ∈ ms, ∀ m ∈ itemModifierIds db item.id,
        (rmods.find? (fun md => md.id == m)).isSome) :
    ∃ es, buildItemEntries db rmods ms = .ok es ∧
      List.Forall₂ (entryMatches db) ms es := by
  induction ms with
  | nil => exact ⟨[], by rw [buildItemEntries], List.Forall₂.nil⟩
  | cons item rest ih =>
    obtain ⟨e, he, hm⟩ := buildItemEntry_ok db rmods item (h item (by simp))
    obtain ⟨es, hes, hf⟩ := ih (fun x hx => h x (by simp [hx]))
    refine ⟨e :: es, ?_, List.Forall₂.cons hm hf⟩
    rw [buildItemEntries]
    simp only [he, hes]

lemma forall2_mem_right {α β : Type} {R : α → β → Prop} {l1 : List α}
    {l2 : List β} (h : List.Forall₂ R l1 l2) : ∀ b ∈ l2, ∃ a ∈ l1, R a b := by
  induction h with
  | nil => simp
  | cons hr _ ih =>
    intro b hb
    rcases List.mem_cons.mp hb with rfl | hb'
    · exact ⟨_, by simp, hr⟩
    · obtain ⟨a, ha, har⟩ := ih b hb'
      exact ⟨a, by simp [ha], har⟩

lemma forall2_mem_left {α β : Type} {R : α → β → Prop} {l1 : List α}
    {l2 : List β} (h : List.Forall₂ R l1 l2) : ∀ a ∈ l1, ∃ b ∈ l2, R a b := by
  induction h with
  | nil => simp
  | cons hr _ ih =>
    intro a ha
    rcases List.mem_cons.mp ha with rfl | ha'
    · exact ⟨_, by simp, hr⟩
    · obtain ⟨b, hb, hbr⟩ := ih a ha'
      exact ⟨b, by simp [hb], hbr⟩

lemma pairwise_transfer {α β : Type} {R : α → β → Prop} {P : α → α → Prop}
    {Q : β → β → Prop} {l1 : List α} {l2 : List β} (h : List.Forall₂ R l1 l2)
    (himp : ∀ a b a' b', R a a' → R b b' → P a b → Q a' b') :
    l1.Pairwise P → l2.Pairwise Q := by
  induction h with
  | nil => intro _; exact List.Pairwise.nil
  | cons hr hf ih =>
    intro hp
    rcases List.pairwise_cons.mp hp with ⟨hpa, hpt⟩
    refine List.pairwise_cons.mpr ⟨?_, ih hpt⟩
    intro y hy
    obtain ⟨x, hx, hxy⟩ := forall2_mem_right hf y hy
    exact himp _ _ _ _ hr hxy (hpa x hx)

/-- C8: for an existing restaurant slug (and junction rows that link the
restaurant's items only to its own modifiers, so the source's
`modifiers_dict[mod_id]` lookups cannot raise), the menu response contains
exactly the restaurant's available menu items — every entry stems from an
available item of the restaurant and every available item of the
restaurant appears — ordered by (category, name); and each entry's
`modifiers` field is `none` exactly when the item has no associated
junction rows, and is never an empty list. -/
theorem get_restaurant_menu_spec (db : DB) (slug : String) (r : Restaurant)
    (hr : db.restaurants.find? (fun x => x.slug == slug) = some r)
    (hcons : ∀ item ∈ db.menuItems, item.restaurant_id = r.id →
        item.available = true → ∀ m ∈ itemModifierIds db item.id,
          ((db.modifiers.filter (fun md => md.restaurant_id == r.id)).find?
            (fun md => md.id == m)).isSome) :
    ∃ resp, get_restaurant_menu db slug = .ok resp ∧
      (∀ e ∈ resp.items, ∃ item ∈ db.menuItems,
          item.restaurant_id = r.id ∧ item.available = true ∧
          entryMatches db item e) ∧
      (∀ item ∈ db.menuItems, item.restaurant_id = r.id →
          item.available = true → ∃ e ∈ resp.items, entryMatches db item e) ∧
      resp.items.Pairwise (fun a b =>
        a.category < b.category ∨ (a.category = b.category ∧ a.name ≤ b.name)) := by
  have hfiltmem : ∀ item, (item ∈ db.menuItems.filter
        (fun m => m.restaurant_id == r.id && m.available) ↔
      (item ∈ db.menuItems ∧ item.restaurant_id = r.id ∧ item.available = true)) := by
    intro item
    simp [List.mem_filter, Bool.and_eq_true, and_assoc]
  have hsortmem : ∀ item, (item ∈ List.insertionSort menuLe (db.menuItems.filter
        (fun m => m.restaurant_id == r.id && m.available)) ↔
      item ∈ db.menuItems.filter (fun m => m.restaurant_id == r.id && m.available)) := by
    intro item
    exact List.mem_insertionSort menuLe
  obtain ⟨es, hes, hf⟩ := buildItemEntries_ok db
      (db.modifiers.filter (fun md => md.restaurant_id == r.id))
      (List.insertionSort menuLe (db.menuItems.filter
        (fun m => m.restaurant_id == r.id && m.available)))
      (by
        intro item hitem
        obtain ⟨hmem, hrid, hav⟩ := (hfiltmem item).mp ((hsortmem item).mp hitem)
        exact hcons item hmem hrid hav)
  refine ⟨⟨⟨r.id, r.slug, r.name⟩, es⟩, ?_, ?_, ?_, ?_⟩
  · simp only [get_restaurant_menu, hr, hes]
  · intro e he
    obtain ⟨item, hitem, hm⟩ := forall2_mem_right hf e he
    obtain ⟨hmem, hrid, hav⟩ := (hfiltmem item).mp ((hsortmem item).mp hitem)
    exact ⟨item, hmem, hrid, hav, hm⟩
  · intro item hmem hrid hav
    have hsort := (hsortmem item).mpr ((hfiltmem item).mpr ⟨hmem, hrid, hav⟩)
    obtain ⟨e, he, hm⟩ := forall2_mem_left hf item hsort
    exact ⟨e, he, hm⟩
  · have hsorted : (List.insertionSort menuLe (db.menuItems.filter
        (fun m => m.restaurant_id == r.id && m.available))).Pairwise menuLe :=
      List.sorted_insertionSort menuLe _
    refine pairwise_transfer hf ?_ hsorted
    intro a b a2 b2 ra rb hab
    obtain ⟨-, hname1, -, hcat1, -, -, -, -⟩ := ra
    obtain ⟨-, hname2, -, hcat2, -, -, -, -⟩ := rb
    rw [hcat1, hcat2, hname1, hname2]
    exact hab

/-- Witness for C8: the fixture's restaurant exists, its junction rows
only reference its own modifiers, and the menu request succeeds. -/
theorem get_restaurant_menu_spec_witness :
    exDB.restaurants.find? (fun x => x.slug == "test-restaurant") =
      some ⟨1, "test-restaurant", "Test Restaurant"⟩ ∧
    ∃ resp, get_restaurant_menu exDB "test-restaurant" = .ok resp := by
  have hr : exDB.restaurants.find? (fun x => x.slug == "test-restaurant") =
      some ⟨1, "test-restaurant", "Test Restaurant"⟩ := by
    simp [exDB, List.find?]
  have hcons : ∀ item ∈ exDB.menuItems, item.restaurant_id = 1 →
      item.available = true → ∀ m ∈ itemModifierIds exDB item.id,
        ((exDB.modifiers.filter (fun md => md.restaurant_id == 1)).find?
          (fun md => md.id == m)).isSome := by
    decide
  obtain ⟨resp, hok, -, -, -⟩ := get_restaurant_menu_spec exDB "test-restaurant"
    ⟨1, "test-restaurant", "Test Restaurant"⟩ hr hcons
  exact ⟨hr, resp, hok⟩

end SmartMenu
